import Mathlib

/-!
# A shallow embedding of the uorm object-document mapper

This development embeds the core of the uorm TypeScript library
(field-schema registry, model lifecycle, shard routing, submodel
dispatch, memoizing cache) into Lean 4 and proves properties of the
embedded code.

The embedding follows the current generation of the source:
`model.ts` (`BaseModel` / `StorableModel` / `ShardedModel` /
`StorableSubmodel`), `fields.ts` (`setupField`), `validator.ts`
(`validateField`), `db.ts` (`Shard`, `DB`) and `cache.ts`
(`SimpleCacheAdapter`, `createKey`, `CachedFunction`).  JavaScript
runtime values are modelled by the inductive type `JSVal`; `null` and
`undefined` are distinct values, mirroring the `===` comparisons in the
source.  Thrown exceptions are modelled with `Except UErr`.
-/

namespace Uorm

/-- JavaScript runtime values as they occur in the library: primitives,
arrays, plain objects, `Date`, `ObjectID`.  `null` and `undefined` are
distinct, as in JavaScript. -/
inductive JSVal : Type where
  | vNull : JSVal
  | vUndefined : JSVal
  | vBool : Bool → JSVal
  | vNum : Int → JSVal
  | vStr : String → JSVal
  | vArr : List JSVal → JSVal
  | vObj : List (String × JSVal) → JSVal
  | vDate : Int → JSVal
  | vObjectId : Nat → JSVal
deriving Repr

/-- `value === null`. -/
def JSVal.isNull : JSVal → Bool
  | .vNull => true
  | _ => false

mutual

/-- Structural value equality on `JSVal`, used where the embedding
compares document values (query matching, `_id` comparison). -/
def jsBeq : JSVal → JSVal → Bool
  | .vNull, .vNull => true
  | .vUndefined, .vUndefined => true
  | .vBool a, .vBool b => a == b
  | .vNum a, .vNum b => a == b
  | .vStr a, .vStr b => a == b
  | .vArr xs, .vArr ys => jsBeqList xs ys
  | .vObj xs, .vObj ys => jsBeqObj xs ys
  | .vDate a, .vDate b => a == b
  | .vObjectId a, .vObjectId b => a == b
  | _, _ => false

/-- Pointwise equality of value lists. -/
def jsBeqList : List JSVal → List JSVal → Bool
  | [], [] => true
  | a :: as, b :: bs => jsBeq a b && jsBeqList as bs
  | _, _ => false

/-- Pointwise equality of key-value pair lists. -/
def jsBeqObj : List (String × JSVal) → List (String × JSVal) → Bool
  | [], [] => true
  | (k1, v1) :: as, (k2, v2) :: bs => k1 == k2 && jsBeq v1 v2 && jsBeqObj as bs
  | _, _ => false

end

/-- Leading and trailing whitespace removal on a character list. -/
def trimChars (l : List Char) : List Char :=
  (((l.dropWhile Char.isWhitespace).reverse).dropWhile
    Char.isWhitespace).reverse

/-- `String.prototype.trim()` of JavaScript, modelled directly on the
character list so that it evaluates by reduction. -/
def jsStrTrim (s : String) : String :=
  ⟨trimChars s.data⟩

/-- JavaScript emptiness test of a string (`!value` for strings). -/
def strIsEmpty (s : String) : Bool :=
  s.data.isEmpty

/-- JavaScript truthiness of a value (`if (v)`): `null`, `undefined`,
`false`, `0` and the empty string are falsy; every object (array,
object, Date, ObjectID) is truthy. -/
def JSVal.truthy : JSVal → Bool
  | .vNull => false
  | .vUndefined => false
  | .vBool b => b
  | .vNum n => n != 0
  | .vStr s => !strIsEmpty s
  | .vArr _ => true
  | .vObj _ => true
  | .vDate _ => true
  | .vObjectId _ => true

/-- Whether a value has a `.trim` method (`value.trim` is truthy):
in the library this is the case exactly for strings. -/
def JSVal.hasTrim : JSVal → Bool
  | .vStr _ => true
  | _ => false

/-- `value.trim()` on a string value; identity on the others (the
source only calls it guarded by `value.trim`). -/
def JSVal.trimVal : JSVal → JSVal
  | .vStr s => .vStr (jsStrTrim s)
  | v => v

/-- Rendering of a value used as a property key (the `in` operator on
an object coerces the key to a string). -/
def JSVal.propKey : JSVal → String
  | .vStr s => s
  | .vNum n => toString n
  | .vBool b => toString b
  | .vNull => "null"
  | .vUndefined => "undefined"
  | .vArr _ => "array"
  | .vObj _ => "object"
  | .vDate t => toString t
  | .vObjectId n => toString n

/-- Plain JavaScript objects used as data payloads / documents:
association lists from property name to value. -/
abbrev Doc := List (String × JSVal)

/-- `key in obj`. -/
def hasKey (d : Doc) (k : String) : Bool :=
  d.any (fun kv => kv.1 == k)

/-- `obj[key]`, `none` when the key is absent. -/
def getKey (d : Doc) (k : String) : Option JSVal :=
  match d.find? (fun kv => kv.1 == k) with
  | some kv => some kv.2
  | none => none

/-- `obj[key] = v`: replace the value at the first occurrence of the
key, append the pair when the key is absent (JavaScript assignment on a
plain object). -/
def putKey : Doc → String → JSVal → Doc
  | [], k, v => [(k, v)]
  | kv :: rest, k, v =>
    if kv.1 == k then (k, v) :: rest else kv :: putKey rest k v

/-- `delete obj[key]`: remove every occurrence of the key. -/
def delKey (d : Doc) (k : String) : Doc :=
  d.filter (fun kv => kv.1 != k)

/-- The errors thrown by the library (`errors.ts`), with their
constructor arguments or messages where the code builds them. -/
inductive UErr : Type where
  | fieldRequired : String → UErr
  | validationError : String → UErr
  | wrongModelType : String → UErr
  | submodelError : String → UErr
  | missingSubmodel : String → UErr
  | wrongSubmodel : String → UErr
  | unknownSubmodel : String → UErr
  | missingShardId : UErr
  | invalidShardId : String → UErr
  | shardIsReadOnly : String → UErr
  | modelDestroyed : UErr
deriving DecidableEq, Repr

/-- The semantic field types of `fields.ts` (`FieldType`). -/
inductive FieldType : Type where
  | any | number | string | array | objectid | datetime | object | boolean
deriving DecidableEq, Repr

/-- A declared default value.  The source dispatches on
`defaultValue instanceof Array` (clone), `instanceof Function`
(invoke) and otherwise uses the value as is. -/
inductive FieldDefault : Type where
  | arr : List JSVal → FieldDefault
  | gen : (Unit → JSVal) → FieldDefault
  | val : JSVal → FieldDefault

/-- Resolution of a default at fill time (`_fill` / `create`):
an array default is cloned (`[...defaultValue]`), a function default is
invoked (`defaultValue()`), any other default is used as is. -/
def FieldDefault.resolve : FieldDefault → JSVal
  | .arr xs => .vArr xs
  | .gen f => f ()
  | .val v => v

/-- The per-class schema state accumulated on the model constructor by
the field decorators: `__fields__`, `__field_types__`, `__defaults__`,
`__required_fields__`, `__restricted_fields__`, `__rejected_fields__`,
`__auto_trim_fields__`. -/
structure Schema : Type where
  fields : List String
  fieldTypes : List (String × FieldType)
  defaults : List (String × FieldDefault)
  requiredFields : List String
  restrictedFields : List String
  rejectedFields : List String
  autoTrimFields : List String

/-- The empty schema of a freshly declared `BaseModel` subclass with no
own field declarations beyond what it inherits. -/
def Schema.empty : Schema :=
  ⟨[], [], [], [], [], [], []⟩

/-- Object-spread update `{...m, [k]: v}`: the value of an existing key
is replaced in place, a new key is appended. -/
def spreadPut {β : Type} : List (String × β) → String → β → List (String × β)
  | [], k, v => [(k, v)]
  | kv :: rest, k, v =>
    if kv.1 == k then (k, v) :: rest else kv :: spreadPut rest k v

/-- Lookup in an association list (`map[k]`). -/
def alistGet {β : Type} (l : List (String × β)) (k : String) : Option β :=
  match l.find? (fun kv => kv.1 == k) with
  | some kv => some kv.2
  | none => none

/-- The field configuration object accepted by the decorators
(`FieldConfig` in `fields.ts`).  Each property is optional; `none`
models an absent property, on which the destructuring defaults
(`defaultValue = null`, `autoTrim = true`, `rejected = false`,
`restricted = false`, `required = false`) apply. -/
structure FieldConfig : Type where
  required : Option Bool := none
  rejected : Option Bool := none
  restricted : Option Bool := none
  autoTrim : Option Bool := none
  defaultValue : Option FieldDefault := none

/-- `setupField` from `fields.ts`: the decorator produced for a field
type and configuration, applied to a property of a class whose schema
state is `s`.  The source rejects the name `shard_id` on sharded
models, appends the property name to `__fields__`, replaces the entry
in the `__field_types__` map via object spread, records a non-null
default, and appends the name to the required / restricted / rejected /
auto-trim lists when the corresponding (defaulted) flags are set.  The
`defaultValue !== null` test corresponds to `defaultValue? = some _`. -/
def setupField (type : FieldType) (config : FieldConfig)
    (isSharded : Bool) (propertyName : String) (s : Schema) :
    Except String Schema :=
  let defaultValue := config.defaultValue
  let autoTrim := config.autoTrim.getD true
  let rejected := config.rejected.getD false
  let restricted := config.restricted.getD false
  let required := config.required.getD false
  if isSharded && propertyName == "shard_id" then
    .error "shard_id name is reserved for sharded models so cannot be used as a field name"
  else
    .ok
      { fields := s.fields ++ [propertyName]
        fieldTypes := spreadPut s.fieldTypes propertyName type
        defaults :=
          match defaultValue with
          | some d => spreadPut s.defaults propertyName d
          | none => s.defaults
        requiredFields :=
          if required then s.requiredFields ++ [propertyName]
          else s.requiredFields
        restrictedFields :=
          if restricted then s.restrictedFields ++ [propertyName]
          else s.restrictedFields
        rejectedFields :=
          if rejected then s.rejectedFields ++ [propertyName]
          else s.rejectedFields
        autoTrimFields :=
          if autoTrim then s.autoTrimFields ++ [propertyName]
          else s.autoTrimFields }

/-- `validateField` from `validator.ts`.  A `null` value is accepted
unless the field is required; otherwise the value is checked against
the declared type; for string fields auto-trim is applied before the
required-emptiness check so whitespace-only input counts as empty.
`instanceof Object` in the `object` case is true for arrays, dates,
ObjectIDs and plain objects, and false for primitives. -/
def validateField (field : String) (value : JSVal) (type : FieldType)
    (required : Bool) (autotrim : Bool) : Except UErr Unit :=
  if value.isNull then
    if required then .error (.fieldRequired field) else .ok ()
  else
    match type with
    | .any => .ok ()
    | .boolean =>
      match value with
      | .vBool _ => .ok ()
      | _ => .error (.validationError s!"Field {field} must be a boolean")
    | .array =>
      match value with
      | .vArr _ => .ok ()
      | _ => .error (.validationError s!"Field {field} must be an array")
    | .number =>
      match value with
      | .vNum _ => .ok ()
      | _ => .error (.validationError s!"Field {field} must be a number")
    | .string =>
      match value with
      | .vStr s =>
        if required && strIsEmpty (if autotrim then jsStrTrim s else s) then
          .error (.fieldRequired s!"Field {field} can not be empty")
        else .ok ()
      | _ => .error (.validationError s!"Field {field} must be a string")
    | .datetime =>
      match value with
      | .vDate _ => .ok ()
      | _ => .error (.validationError s!"Field {field} must be a datetime")
    | .objectid =>
      match value with
      | .vObjectId _ => .ok ()
      | _ =>
        .error (.validationError s!"Field {field} must be an ObjectID instance")
    | .object =>
      match value with
      | .vObj _ | .vArr _ | .vDate _ | .vObjectId _ => .ok ()
      | _ => .error (.validationError s!"Field {field} must be an object")

instance : BEq JSVal := ⟨jsBeq⟩

/-- A model class as `make` and the persistence layer see it: the class
name, the accumulated schema, the `isSharded` / `isSubmodel` markers,
the own discriminator `__submodel__`, and the `__submodel_loaders__`
registry mapping a discriminator string to the registered concrete
class. -/
inductive ModelClass : Type where
  | mk :
      (name : String) → (schema : Schema) → (isSharded : Bool) →
      (isSubmodel : Bool) → (submodel : Option String) →
      (loaders : List (String × ModelClass)) → ModelClass

def ModelClass.name : ModelClass → String
  | .mk n _ _ _ _ _ => n

def ModelClass.schema : ModelClass → Schema
  | .mk _ s _ _ _ _ => s

def ModelClass.isSharded : ModelClass → Bool
  | .mk _ _ b _ _ _ => b

def ModelClass.isSubmodel : ModelClass → Bool
  | .mk _ _ _ b _ _ => b

def ModelClass.submodel : ModelClass → Option String
  | .mk _ _ _ _ s _ => s

def ModelClass.loaders : ModelClass → List (String × ModelClass)
  | .mk _ _ _ _ _ l => l

/-- Lookup of a registered submodel loader
(`this.__submodel_loaders__[submodelName]`). -/
def lookupLoader : List (String × ModelClass) → String → Option ModelClass
  | [], _ => none
  | (k, m) :: rest, s => if k == s then some m else lookupLoader rest s

/-- A model instance: the concrete class that constructed it, the
separate `shardId` stored by the constructor, and the field values. -/
structure Instance : Type where
  ofClass : String
  shardId : JSVal
  values : String → JSVal

/-- The value `_fill` computes for one declared field: `data[field]`
when the key is present, else `null`; when that is `=== null` and a
default is declared, the resolved default. -/
def fillValue (sch : Schema) (data : Doc) (field : String) : JSVal :=
  let calculated :=
    match getKey data field with
    | some v => v
    | none => .vNull
  if calculated.isNull then
    match alistGet sch.defaults field with
    | some d => d.resolve
    | none => .vNull
  else calculated

/-- `_fill(data)`: assigns `fillValue` to every declared field, leaving
all other keys of the instance untouched. -/
def Instance.fillFields (inst : Instance) (sch : Schema) (data : Doc) :
    Instance :=
  { inst with
      values := fun f =>
        if sch.fields.contains f then fillValue sch data f
        else inst.values f }

/-- `new this(shardId)`: a fresh instance of the class.  Field values
are uninitialized (`undefined`) until `_fill` runs; the `_id` property
initializer (`= null`) is irrelevant because `_id` is a declared field
and is always overwritten by `_fill`. -/
def ModelClass.newInstance (cls : ModelClass) (shardId : JSVal) : Instance :=
  { ofClass := cls.name, shardId := shardId, values := fun _ => .vUndefined }

/-- `submodelField !== this.__submodel__` made positive: a stored
discriminator value strictly equals the declared one (string versus
string, or `null` versus `null`).  `undefined` never equals `null`. -/
def submodelMatches : JSVal → Option String → Bool
  | .vStr s, some t => s == t
  | .vNull, none => true
  | _, _ => false

/-- `_checkSubmodel()`: a no-op for non-submodel classes; otherwise the
instance's `submodel` field must strictly equal the class's own
`__submodel__`. -/
def ModelClass.checkSubmodel (cls : ModelClass) (inst : Instance) :
    Except UErr Unit :=
  if !cls.isSubmodel then .ok ()
  else if submodelMatches (inst.values "submodel") cls.submodel then .ok ()
  else
    .error
      (.wrongSubmodel
        s!"Attempted to load a wrong submodel as {cls.name}. Bug?")

/-- Truthiness of `data[k]` (`!data._id` tests, with an absent key
behaving as `undefined`). -/
def truthyAt (data : Doc) (k : String) : Bool :=
  ((getKey data k).getD .vUndefined).truthy

/-- `data.shard_id` as passed to `constructor(shardId = null)`: both an
absent key and an explicit `undefined` fall back to `null` via the
default parameter. -/
def shardIdOf (data : Doc) : JSVal :=
  match getKey data "shard_id" with
  | some .vUndefined => .vNull
  | some v => v
  | none => .vNull

/-- The tail of `make`: `new this(shardId)` (with `shard_id` extracted
from the data only for sharded classes), `_fill(data)` and
`_checkSubmodel()`. -/
def ModelClass.finishMake (cls : ModelClass) (data : Doc) :
    Except UErr Instance :=
  match cls.checkSubmodel
      ((cls.newInstance
        (if cls.isSharded then shardIdOf data else .vNull)).fillFields
          cls.schema data) with
  | .ok _ =>
    .ok ((cls.newInstance
      (if cls.isSharded then shardIdOf data else .vNull)).fillFields
        cls.schema data)
  | .error e => .error e

/-- `BaseModel.make(data)` from `model.ts`.  For submodel classes: a
new object (falsy `data._id`) requires a concrete class
(`SubmodelError` on an abstract one), forbids a caller-supplied
`submodel` key (`SubmodelError`) and stamps the class discriminator
into the data; a loaded object (truthy `data._id`) requires a truthy
`data.submodel` (`MissingSubmodel`), and an abstract class dispatches
to the loader registered under that discriminator (`WrongSubmodel`
when none is registered).  All paths then fall through to
`finishMake`. -/
def ModelClass.make : ModelClass → Doc → Except UErr Instance
  | cls@(.mk nm _ _ isSub subName loaders), data =>
    if isSub then
      if !(truthyAt data "_id") then
        match subName with
        | none =>
          .error
            (.submodelError
              s!"Attempted to create an object of abstract submodel {nm}")
        | some sname =>
          if hasKey data "submodel" then
            .error
              (.submodelError "Attempt to override submodel for a new object")
          else cls.finishMake (putKey data "submodel" (.vStr sname))
      else
        let submodelName := (getKey data "submodel").getD .vUndefined
        if !submodelName.truthy then
          .error (.missingSubmodel s!"{nm} has no submodel in DB. Bug?")
        else
          match subName with
          | none =>
            match h : lookupLoader loaders submodelName.propKey with
            | none =>
              .error
                (.wrongSubmodel
                  s!"Model {submodelName.propKey} is not registered in {nm}")
            | some properCtor => properCtor.make data
          | some _ => cls.finishMake data
    else cls.finishMake data
termination_by cls => sizeOf cls
decreasing_by
  all_goals
    simp only [ModelClass.mk.sizeOf_spec]
    have hlt : sizeOf properCtor < sizeOf loaders := by
      clear * - h
      induction loaders with
      | nil => simp [lookupLoader] at h
      | cons kv rest ih =>
        rw [lookupLoader] at h
        by_cases hk : kv.1 == submodelName.propKey
        · obtain ⟨k0, m0⟩ := kv
          simp [hk] at h
          subst h
          simp
          omega
        · obtain ⟨k0, m0⟩ := kv
          simp only [hk] at h
          have := ih (by simpa using h)
          simp
          omega
    omega

/-- `instance.isNew()`: the `_id` field is strictly `null`. -/
def Instance.isNew (inst : Instance) : Bool :=
  (inst.values "_id").isNull

/-- `__setField(key, value)`. -/
def Instance.setField (inst : Instance) (k : String) (v : JSVal) : Instance :=
  { inst with values := fun g => if g == k then v else inst.values g }

/-- One step of the `_validateAndTrim` loop for one declared field:
`_id` is skipped; otherwise the field value is validated against the
declared type, required flag and auto-trim flag, and a truthy value
with a `.trim` method on an auto-trim field is trimmed in place. -/
def vatStep (cls : ModelClass) (acc : Instance) (field : String) :
    Except UErr Instance :=
  if field == "_id" then .ok acc
  else
    match validateField field (acc.values field)
        ((alistGet cls.schema.fieldTypes field).getD .any)
        (cls.schema.requiredFields.contains field)
        (cls.schema.autoTrimFields.contains field) with
    | .error e => .error e
    | .ok _ =>
      .ok
        (if cls.schema.autoTrimFields.contains field &&
            (acc.values field).truthy && (acc.values field).hasTrim then
          acc.setField field (acc.values field).trimVal
        else acc)

/-- `_validateAndTrim()` from `model.ts`: iterate the declared fields
(skipping `_id`), validating and trimming each in order, then run
`_checkSubmodel` on the (possibly trimmed) instance.  A missing
`__field_types__` entry behaves like `any` (the `switch` default and
the `any` case both accept every non-null value). -/
def ModelClass.validateAndTrim (cls : ModelClass) (inst : Instance) :
    Except UErr Instance := do
  let r ← cls.schema.fields.foldlM (vatStep cls) inst
  match cls.checkSubmodel r with
  | .ok _ => pure r
  | .error e => .error e

/-- `toObject(fields?, includeRestricted)`: a plain object of the
requested (or all declared) fields, omitting restricted fields unless
included, and omitting `undefined` values.  (Function-valued computed
properties, which `__getField` maps to `undefined`, are outside this
value model.) -/
def Instance.toObject (inst : Instance) (cls : ModelClass)
    (fields : Option (List String)) (includeRestricted : Bool) : Doc :=
  (fields.getD cls.schema.fields).foldl
    (fun obj field =>
      if includeRestricted || !cls.schema.restrictedFields.contains field then
        match inst.values field with
        | .vUndefined => obj
        | v => putKey obj field v
      else obj)
    []

/-- The calls a `Shard` makes on the underlying document-store
collaborator (`coll.findOne`, `coll.find`, `coll.insertOne`,
`coll.replaceOne`, `coll.deleteOne`, `coll.deleteMany`,
`coll.updateMany`, `coll.findOneAndUpdate`). -/
inductive StoreCall : Type where
  | findOne | find | insertOne | replaceOne
  | deleteOne | deleteMany | updateMany | findOneAndUpdate
deriving DecidableEq, Repr

/-- The state of one `Shard` (`db.ts`): its id (`null` for the meta
partition), the `open` flag from its configuration, the documents of
the (single, per-collection) store, and a source of fresh ObjectIDs
for `insertOne`. -/
structure ShardState : Type where
  shardId : Option String
  isOpen : Bool
  docs : List Doc
  nextId : Nat

/-- `this.shardId || 'meta'` (an empty shard id is falsy). -/
def ShardState.name (sh : ShardState) : String :=
  match sh.shardId with
  | some s => if s.isEmpty then "meta" else s
  | none => "meta"

/-- Outcome of one `Shard` operation: the returned value or thrown
error, the shard state afterwards, and the calls made on the
underlying store collaborator during the operation. -/
structure OpResult (α : Type) : Type where
  result : Except UErr α
  state : ShardState
  calls : List StoreCall

/-- MongoDB equality-query matching: every key of the query is present
in the document with an equal value.  (Query operators are outside
this model; the library passes queries through to the collaborator
unchanged.) -/
def matchesQuery (d : Doc) (q : Doc) : Bool :=
  q.all fun kv =>
    match getKey d kv.1 with
    | some v => jsBeq v kv.2
    | none => false

/-- Whether a stored document carries the given `_id` value. -/
def idMatches (d : Doc) (idVal : JSVal) : Bool :=
  match getKey d "_id" with
  | some v => jsBeq v idVal
  | none => false

/-- `coll.replaceOne({_id: idVal}, data, {upsert: true})`: replace the
first document with that `_id` by `data`, appending `data` when none
matches (upsert). -/
def replaceOneById : List Doc → JSVal → Doc → List Doc
  | [], _, data => [data]
  | d :: rest, idVal, data =>
    if idMatches d idVal then data :: rest
    else d :: replaceOneById rest idVal data

/-- `coll.deleteOne({_id: idVal})`: remove the first matching
document. -/
def deleteOneById : List Doc → JSVal → List Doc
  | [], _ => []
  | d :: rest, idVal =>
    if idMatches d idVal then rest else d :: deleteOneById rest idVal

/-- The `$set` part of a MongoDB update applied to one document; other
update operators are outside this model. -/
def applySet (upd : Doc) (d : Doc) : Doc :=
  match getKey upd "$set" with
  | some (.vObj m) => m.foldl (fun acc kv => putKey acc kv.1 kv.2) d
  | _ => d

/-- Replace the first document matching a query by the given one. -/
def replaceFirstMatching : List Doc → Doc → Doc → List Doc
  | [], _, _ => []
  | d :: rest, q, newDoc =>
    if matchesQuery d q then newDoc :: rest
    else d :: replaceFirstMatching rest q newDoc

/-- `Shard.saveObj(obj)` from `db.ts`: rejects with `ShardIsReadOnly`
when the shard is not open, before any store call; otherwise takes
`toObject(null, true)`, and either inserts (deleting `_id` from the
payload first, then assigning the inserted id to the instance) when
the instance is new, or replaces the document with the instance's
`_id` (upsert). -/
def ShardState.saveObj (sh : ShardState) (cls : ModelClass)
    (obj : Instance) : OpResult Instance :=
  if !sh.isOpen then ⟨.error (.shardIsReadOnly sh.name), sh, []⟩
  else
    let data := obj.toObject cls none true
    if obj.isNew then
      let data := delKey data "_id"
      let newId := JSVal.vObjectId sh.nextId
      ⟨.ok (obj.setField "_id" newId),
        { sh with
            docs := sh.docs ++ [putKey data "_id" newId]
            nextId := sh.nextId + 1 },
        [.insertOne]⟩
    else
      ⟨.ok obj,
        { sh with docs := replaceOneById sh.docs (obj.values "_id") data },
        [.replaceOne]⟩

/-- `Shard.deleteObj(obj)`: read-only guard, then
`coll.deleteOne({_id: obj._id})`. -/
def ShardState.deleteObj (sh : ShardState) (obj : Instance) :
    OpResult Unit :=
  if !sh.isOpen then ⟨.error (.shardIsReadOnly sh.name), sh, []⟩
  else
    ⟨.ok (), { sh with docs := deleteOneById sh.docs (obj.values "_id") },
      [.deleteOne]⟩

/-- `Shard.deleteQuery(collection, query)`: read-only guard, then
`coll.deleteMany(query)`. -/
def ShardState.deleteQuery (sh : ShardState) (q : Doc) : OpResult Unit :=
  if !sh.isOpen then ⟨.error (.shardIsReadOnly sh.name), sh, []⟩
  else
    ⟨.ok (), { sh with docs := sh.docs.filter (fun d => !matchesQuery d q) },
      [.deleteMany]⟩

/-- `Shard.updateQuery(collection, query, update)`: read-only guard,
then `coll.updateMany(query, update)`. -/
def ShardState.updateQuery (sh : ShardState) (q upd : Doc) : OpResult Unit :=
  if !sh.isOpen then ⟨.error (.shardIsReadOnly sh.name), sh, []⟩
  else
    ⟨.ok (),
      { sh with
          docs := sh.docs.map (fun d =>
            if matchesQuery d q then applySet upd d else d) },
      [.updateMany]⟩

/-- `Shard.findAndUpdateObject(obj, update, when)`: read-only guard;
query `{...when, _id: obj._id}`; `coll.findOneAndUpdate` with
`returnOriginal: false` returns the updated document or `null`; a
non-null result on a named shard gets `shard_id` stamped in. -/
def ShardState.findAndUpdateObject (sh : ShardState) (obj : Instance)
    (upd : Doc) (whenCond : Option Doc) : OpResult (Option Doc) :=
  if !sh.isOpen then ⟨.error (.shardIsReadOnly sh.name), sh, []⟩
  else
    let query := putKey (whenCond.getD []) "_id" (obj.values "_id")
    match sh.docs.find? (fun d => matchesQuery d query) with
    | none => ⟨.ok none, sh, [.findOneAndUpdate]⟩
    | some d =>
      let updated := applySet upd d
      let newData :=
        match sh.shardId with
        | some sid =>
          if sid.isEmpty then updated else putKey updated "shard_id" (.vStr sid)
        | none => updated
      ⟨.ok (some newData),
        { sh with docs := replaceFirstMatching sh.docs query updated },
        [.findOneAndUpdate]⟩

/-- `obj['shard_id'] = this.shardId` on a named shard (`this.shardId`
is truthy): the shard id is stamped into a loaded document. -/
def stampShardId (sh : ShardState) (d : Doc) : Doc :=
  match sh.shardId with
  | some sid => if sid.isEmpty then d else putKey d "shard_id" (.vStr sid)
  | none => d

/-- `Shard.getObject(collection, query, ctor)`: `coll.findOne(query)`
with no read-only guard; `null` maps to `null`, a found document gets
`shard_id` stamped in on a named shard and is passed to
`ctor.make`. -/
def ShardState.getObject (sh : ShardState) (cls : ModelClass) (q : Doc) :
    OpResult (Option Instance) :=
  match sh.docs.find? (fun d => matchesQuery d q) with
  | none => ⟨.ok none, sh, [.findOne]⟩
  | some d =>
    match cls.make (stampShardId sh d) with
    | .ok inst => ⟨.ok (some inst), sh, [.findOne]⟩
    | .error e => ⟨.error e, sh, [.findOne]⟩

/-- `Shard.getObjectsCursor(collection, query, ctor)`: `coll.find` with
no read-only guard, wrapped in a `ModelCursor` (modelled by the list of
matching documents, materialized through `make` on demand). -/
def ShardState.getObjectsCursor (sh : ShardState) (q : Doc) :
    OpResult (List Doc) :=
  ⟨.ok (sh.docs.filter (fun d => matchesQuery d q)), sh, [.find]⟩

/-- `save()` from `model.ts`, for the default no-op callbacks of
`BaseModel` and the `StorableModel._save_to_db` implementation:
`_validateAndTrim()` then `this.db().saveObj(this)`. -/
def ShardState.save (sh : ShardState) (cls : ModelClass)
    (inst : Instance) : OpResult Instance :=
  match cls.validateAndTrim inst with
  | .error e => ⟨.error e, sh, []⟩
  | .ok instT => sh.saveObj cls instT

/-- The field-merge loop of `update(data)`: every declared field that
is a key of `data`, is not rejected and is not `_id` is assigned from
`data`. -/
def applyUpdateData (cls : ModelClass) (inst : Instance) (data : Doc) :
    Instance :=
  cls.schema.fields.foldl
    (fun acc field =>
      if hasKey data field && !cls.schema.rejectedFields.contains field
          && field != "_id" then
        acc.setField field ((getKey data field).getD .vUndefined)
      else acc)
    inst

/-- `update(data)` from `model.ts`: the field-merge loop followed by
`save()`. -/
def ShardState.update (sh : ShardState) (cls : ModelClass)
    (inst : Instance) (data : Doc) : OpResult Instance :=
  sh.save cls (applyUpdateData cls inst data)

/-- The `DB` singleton's partitions: the meta shard and the named
shards from the configuration. -/
structure DBEnv : Type where
  meta : ShardState
  shards : List (String × ShardState)

/-- `db.getShard(shardId)`: the named shard, or `InvalidShardId` when
the id is not configured. -/
def DBEnv.getShard (env : DBEnv) (shardId : String) : Except UErr ShardState :=
  match alistGet env.shards shardId with
  | some sh => .ok sh
  | none => .error (.invalidShardId shardId)

/-- JavaScript truthiness of an optional string argument
(`if (shardId)`): absent and empty strings are falsy. -/
def strOptTruthy : Option String → Bool
  | some s => !s.isEmpty
  | none => false

/-- `StorableModel.getShard(shardId?)` from `model.ts`: a non-sharded
model throws `WrongModelType` when a truthy shard id is supplied and
returns `db.meta()` otherwise. -/
def storableGetShard (className : String) (env : DBEnv)
    (shardId : Option String) : Except UErr ShardState :=
  if strOptTruthy shardId then
    .error
      (.wrongModelType
        s!"{className} model does not support shards, however shardId is defined")
  else .ok env.meta

/-- `ShardedModel.getShard(shardId?)` from `model.ts`: a sharded model
throws `WrongModelType` when no truthy shard id is supplied and
resolves the named shard through `db.getShard` otherwise. -/
def shardedGetShard (className : String) (env : DBEnv)
    (shardId : Option String) : Except UErr ShardState :=
  if !strOptTruthy shardId then
    .error
      (.wrongModelType
        s!"{className} model uses shards, however shardId is not provided")
  else env.getShard (shardId.getD "")

/-- The shard-id check at the top of `ShardedModel.findOne` in the
earlier `sharded_model.ts` variant: `if (!shardId) throw new
MissingShardId()`. -/
def shardedFindOneShardCheck (shardId : Option String) : Except UErr Unit :=
  if !strOptTruthy shardId then .error .missingShardId else .ok ()

/-- One entry of the in-process cache (`ExpirableValue`): the value and
its absolute expiry time in milliseconds
(`Date.now() + ttlSec * 1000`). -/
structure CacheEntry : Type where
  value : JSVal
  expiresAt : Nat

/-- The `SimpleCacheAdapter` store together with the current clock
(`Date.now()`), which the pure embedding threads explicitly. -/
structure CacheState : Type where
  store : List (String × CacheEntry)
  now : Nat

/-- `entry.expired`: `Date.now() > expiresAt`. -/
def CacheState.expired (c : CacheState) (e : CacheEntry) : Bool :=
  c.now > e.expiresAt

/-- `SimpleCacheAdapter.get(key)`: `null` on a missing key; an expired
entry is deleted lazily and reads as `null`; otherwise the stored
value. -/
def CacheState.get (c : CacheState) (key : String) : CacheState × JSVal :=
  match alistGet c.store key with
  | none => (c, .vNull)
  | some e =>
    if c.expired e then
      ({ c with store := c.store.filter (fun kv => kv.1 != key) }, .vNull)
    else (c, e.value)

/-- `SimpleCacheAdapter.set(key, value, ttlSec)`. -/
def CacheState.set (c : CacheState) (key : String) (v : JSVal)
    (ttlSec : Nat) : CacheState :=
  { c with store := spreadPut c.store key ⟨v, c.now + ttlSec * 1000⟩ }

/-- `SimpleCacheAdapter.has(key)`: present and not expired. -/
def CacheState.has (c : CacheState) (key : String) : Bool :=
  match alistGet c.store key with
  | none => false
  | some e => !c.expired e

/-- `SimpleCacheAdapter.delete(key)`: `false` without touching the
store when `has` is false, else remove the entry and report success. -/
def CacheState.deleteKey (c : CacheState) (key : String) :
    CacheState × Bool :=
  if c.has key then
    ({ c with store := c.store.filter (fun kv => kv.1 != key) }, true)
  else (c, false)

/-- `createKey(prefix, funcName, args)` from `cache.ts`:
`"<prefix>.<funcName>(<digest>)"` with an empty digest for an empty
argument list.  The md5 digest of the concatenated argument strings is
abstracted as the `hashFn` parameter. -/
def createKey (hashFn : List JSVal → String) (keyPrefix funcName : String)
    (args : List JSVal) : String :=
  let argsHash := if args.length != 0 then hashFn args else ""
  s!"{keyPrefix}.{funcName}({argsHash})"

/-- The body of the `__decorated` wrapper installed by
`CachedFunction(prefix, ttlSec)`: look the key up; when the cached
result is truthy, return it without invoking the wrapped method;
otherwise invoke the wrapped method, store the result under the
decoration-time TTL and return it.  The wrapped asynchronous method is
modelled as a state transformer `origFunc`; the last component counts
how often it was invoked during the call. -/
def cachedCall {σ : Type} (ttlSec : Nat) (key : String)
    (origFunc : σ → σ × JSVal) (cache : CacheState) (s : σ) :
    CacheState × σ × JSVal × Nat :=
  let looked := cache.get key
  let cachedResult := looked.2
  if cachedResult.truthy then (looked.1, s, cachedResult, 0)
  else
    let invoked := origFunc s
    ((looked.1.set key invoked.2 ttlSec), invoked.1, invoked.2, 1)

/-- Recognizer for an `UnknownSubmodel` failure. -/
def isUnknownSubmodelErr {α : Type} : Except UErr α → Bool
  | .error (.unknownSubmodel _) => true
  | _ => false

/-- Recognizer for a `WrongSubmodel` failure. -/
def isWrongSubmodelErr {α : Type} : Except UErr α → Bool
  | .error (.wrongSubmodel _) => true
  | _ => false

/-- Recognizer for a `MissingSubmodel` failure. -/
def isMissingSubmodelErr {α : Type} : Except UErr α → Bool
  | .error (.missingSubmodel _) => true
  | _ => false

/-- Recognizer for a `ValidationError` failure. -/
def isValidationErr {α : Type} : Except UErr α → Bool
  | .error (.validationError _) => true
  | _ => false

/-- Recognizer for a `WrongModelType` failure. -/
def isWrongModelTypeErr {α : Type} : Except UErr α → Bool
  | .error (.wrongModelType _) => true
  | _ => false

/-- The acceptance condition of the type `switch` in `validateField`
for a non-null value: which constructors each declared type admits
(`instanceof Object` admits arrays, dates, ObjectIDs and plain
objects). -/
def typeAccepts : JSVal → FieldType → Bool
  | _, .any => true
  | .vBool _, .boolean => true
  | _, .boolean => false
  | .vArr _, .array => true
  | _, .array => false
  | .vNum _, .number => true
  | _, .number => false
  | .vStr _, .string => true
  | _, .string => false
  | .vDate _, .datetime => true
  | _, .datetime => false
  | .vObjectId _, .objectid => true
  | _, .objectid => false
  | .vObj _, .object => true
  | .vArr _, .object => true
  | .vDate _, .object => true
  | .vObjectId _, .object => true
  | _, .object => false

section AssocLemmas

theorem getKey_putKey_self (d : Doc) (k : String) (v : JSVal) :
    getKey (putKey d k v) k = some v := by
  induction d with
  | nil => simp [putKey, getKey, List.find?]
  | cons kv rest ih =>
    by_cases h : kv.1 == k
    · simp [putKey, h, getKey, List.find?]
    · simp only [putKey, h, if_neg, Bool.false_eq_true, ite_false]
      simpa [getKey, List.find?, h] using ih

theorem getKey_putKey_ne (d : Doc) (k g : String) (v : JSVal)
    (h : g ≠ k) : getKey (putKey d k v) g = getKey d g := by
  induction d with
  | nil =>
    simp [putKey, getKey, List.find?, show (k == g) = false by
      simpa using fun hkg => h hkg.symm]
  | cons kv rest ih =>
    by_cases hk : kv.1 == k
    · have hkv : (kv.1 == g) = false := by
        have : kv.1 = k := by simpa using hk
        subst this
        simpa using fun hkg => h hkg.symm
      simp [putKey, hk, getKey, List.find?, hkv,
        show (k == g) = false by simpa using fun hkg => h hkg.symm]
    · by_cases hg : kv.1 == g
      · simp [putKey, hk, getKey, List.find?, hg]
      · simp only [putKey, hk, Bool.false_eq_true, ite_false]
        simpa [getKey, List.find?, hg] using ih

theorem alistGet_spreadPut_self {β : Type} (l : List (String × β))
    (k : String) (v : β) : alistGet (spreadPut l k v) k = some v := by
  induction l with
  | nil => simp [spreadPut, alistGet, List.find?]
  | cons kv rest ih =>
    by_cases h : kv.1 == k
    · simp [spreadPut, h, alistGet, List.find?]
    · simp only [spreadPut, h, Bool.false_eq_true, ite_false]
      simpa [alistGet, List.find?, h] using ih

theorem alistGet_filter_self {β : Type} (l : List (String × β))
    (k : String) :
    alistGet (l.filter (fun kv => kv.1 != k)) k = none := by
  induction l with
  | nil => simp [alistGet, List.find?]
  | cons kv rest ih =>
    rw [List.filter_cons]
    by_cases h : (kv.1 == k) = true
    · simp only [bne, h, Bool.not_true, Bool.false_eq_true, ite_false]
      exact ih
    · have h' : (kv.1 == k) = false := by simpa using h
      simp only [bne, h', Bool.not_false, ite_true]
      simpa [alistGet, List.find?, h'] using ih

end AssocLemmas

section CacheLemmas

theorem CacheState.get_set (c : CacheState) (k : String) (v : JSVal)
    (ttl : Nat) : (c.set k v ttl).get k = (c.set k v ttl, v) := by
  have hget : alistGet (spreadPut c.store k ⟨v, c.now + ttl * 1000⟩) k =
      some ⟨v, c.now + ttl * 1000⟩ := alistGet_spreadPut_self _ _ _
  simp [CacheState.get, CacheState.set, hget, CacheState.expired]

theorem CacheState.get_deleteKey (c : CacheState) (k : String) :
    ((c.deleteKey k).1.get k).2 = .vNull := by
  unfold CacheState.deleteKey
  by_cases h : c.has k = true
  · simp only [h, ite_true]
    simp [CacheState.get, alistGet_filter_self]
  · simp only [h, Bool.false_eq_true, ite_false]
    unfold CacheState.has at h
    unfold CacheState.get
    cases hA : alistGet c.store k with
    | none => simp
    | some e =>
      rw [hA] at h
      have hexp : c.expired e = true := by simpa using h
      simp [hexp]

end CacheLemmas

/-- Claim C2: for every field other than the identifier, validation
rejects a `null` value on a required field with `FieldRequired`,
rejects a non-null value that does not satisfy the declared type's
acceptance condition with `ValidationError`, and accepts `null` on
every non-required field regardless of the declared type; the
identifier field is skipped by `_validateAndTrim` altogether. -/
theorem validate_null_and_type_rules (f : String) (v : JSVal)
    (t : FieldType) (req atr : Bool) :
    (v = .vNull → req = true →
      validateField f v t req atr = .error (.fieldRequired f)) ∧
    (v = .vNull → req = false → validateField f v t req atr = .ok ()) ∧
    (v.isNull = false → typeAccepts v t = false →
      isValidationErr (validateField f v t req atr) = true) ∧
    (∀ (cls : ModelClass) (inst : Instance), cls.schema.fields = ["_id"] →
      cls.isSubmodel = false → cls.validateAndTrim inst = .ok inst) := by
  refine ⟨?_, ?_, ?_, ?_⟩
  · rintro rfl rfl
    simp [validateField, JSVal.isNull]
  · rintro rfl rfl
    simp [validateField, JSVal.isNull]
  · intro hnn hacc
    cases v <;> cases t <;>
      simp_all [validateField, typeAccepts, JSVal.isNull, isValidationErr]
  · intro cls inst hfs hsub
    simp [ModelClass.validateAndTrim, hfs, vatStep,
      ModelClass.checkSubmodel, hsub]

/-- Witness for C2: on a required string field, `null` is rejected
with `FieldRequired`; a numeric value on a string field is rejected
with `ValidationError`; `null` on a non-required number field is
accepted. -/
theorem validate_null_and_type_rules_witness :
    validateField "username" .vNull .string true true =
      .error (.fieldRequired "username") ∧
    isValidationErr
      (validateField "username" (.vNum 135) .string false true) = true ∧
    validateField "age" .vNull .number false false = .ok () := by
  refine ⟨?_, ?_, ?_⟩
  · exact (validate_null_and_type_rules "username" .vNull .string true
      true).1 rfl rfl
  · exact (validate_null_and_type_rules "username" (.vNum 135) .string
      false true).2.2.1 rfl rfl
  · exact (validate_null_and_type_rules "age" .vNull .number false
      false).2.1 rfl rfl

/-- Claim C5 (amended): partition resolution returns the meta
partition for a non-shard-aware class when no truthy shard identifier
is supplied and fails with `WrongModelType` when one is; for a
shard-aware class it returns the named partition for a supplied,
configured shard identifier and fails with `WrongModelType` when none
was supplied (the earlier `ShardedModel.findOne` variant fails with
`MissingShardId` in that case). -/
theorem partition_resolution_amended (cn : String) (env : DBEnv)
    (sid : Option String) :
    (strOptTruthy sid = false → storableGetShard cn env sid = .ok env.meta) ∧
    (strOptTruthy sid = true →
      isWrongModelTypeErr (storableGetShard cn env sid) = true) ∧
    (∀ s sh, sid = some s → s.isEmpty = false →
      alistGet env.shards s = some sh → shardedGetShard cn env sid = .ok sh) ∧
    (strOptTruthy sid = false →
      isWrongModelTypeErr (shardedGetShard cn env sid) = true) ∧
    (strOptTruthy sid = false →
      shardedFindOneShardCheck sid = .error .missingShardId) := by
  refine ⟨?_, ?_, ?_, ?_, ?_⟩
  · intro h
    simp [storableGetShard, h]
  · intro h
    simp [storableGetShard, h, isWrongModelTypeErr]
  · rintro s sh rfl hne hget
    simp [shardedGetShard, strOptTruthy, hne, DBEnv.getShard, hget]
  · intro h
    simp [shardedGetShard, h, isWrongModelTypeErr]
  · intro h
    simp [shardedFindOneShardCheck, h]

/-- A two-partition environment used to exercise shard resolution. -/
def envC5 : DBEnv :=
  { meta := { shardId := none, isOpen := true, docs := [], nextId := 0 }
    shards := [("s1",
      { shardId := some "s1", isOpen := true, docs := [], nextId := 0 })] }

/-- Counterexample for C5 as stated: supplying the shard identifier
`"s1"` to a non-shard-aware class does not return the meta partition —
it throws `WrongModelType`; and a shard-aware class with no shard
identifier throws `WrongModelType`, not `MissingShardId`. -/
theorem partition_resolution_claim_cex :
    storableGetShard "User" envC5 (some "s1") =
      .error (.wrongModelType
        "User model does not support shards, however shardId is defined") ∧
    isWrongModelTypeErr (storableGetShard "User" envC5 (some "s1")) = true ∧
    shardedGetShard "Post" envC5 none =
      .error (.wrongModelType
        "Post model uses shards, however shardId is not provided") ∧
    isWrongModelTypeErr (shardedGetShard "Post" envC5 none) = true := by
  exact ⟨rfl, rfl, rfl, rfl⟩

/-- Witness for C5 (amended) at the concrete environment: the meta
partition for a non-sharded class without a shard id, the named
partition `"s1"` for a sharded class, and the two failure modes. -/
theorem partition_resolution_amended_witness :
    storableGetShard "User" envC5 none = .ok envC5.meta ∧
    isWrongModelTypeErr (storableGetShard "User" envC5 (some "s1")) = true ∧
    shardedGetShard "Post" envC5 (some "s1") =
      .ok { shardId := some "s1", isOpen := true, docs := [], nextId := 0 } ∧
    isWrongModelTypeErr (shardedGetShard "Post" envC5 none) = true ∧
    shardedFindOneShardCheck none = .error .missingShardId := by
  refine ⟨?_, ?_, ?_, ?_, ?_⟩
  · exact (partition_resolution_amended "User" envC5 none).1 rfl
  · exact (partition_resolution_amended "User" envC5 (some "s1")).2.1 rfl
  · exact (partition_resolution_amended "Post" envC5 (some "s1")).2.2.1
      "s1" _ rfl rfl rfl
  · exact (partition_resolution_amended "Post" envC5 none).2.2.2.1 rfl
  · exact (partition_resolution_amended "Post" envC5 none).2.2.2.2 rfl

/-- Claim C8 (amended): a memoized invocation whose lookup yields a
truthy cached value returns it without invoking the wrapped method;
otherwise (key absent, entry expired, or a falsy cached value) it
invokes the wrapped method exactly once, stores the result under the
decoration-time TTL and returns it; a second sequential call after a
first call whose truthy result was stored hits the cache and does not
invoke the wrapped method again; after explicit deletion of the key
the next call always recomputes. -/
theorem cached_call_amended {σ : Type} (ttl : Nat) (key : String)
    (f : σ → σ × JSVal) (cache : CacheState) (s : σ) :
    ((cache.get key).2.truthy = true →
      cachedCall ttl key f cache s =
        ((cache.get key).1, s, (cache.get key).2, 0)) ∧
    ((cache.get key).2.truthy = false →
      cachedCall ttl key f cache s =
        ((cache.get key).1.set key (f s).2 ttl, (f s).1, (f s).2, 1)) ∧
    ((cache.get key).2.truthy = false → (f s).2.truthy = true →
      cachedCall ttl key f (cachedCall ttl key f cache s).1 (f s).1 =
        ((cachedCall ttl key f cache s).1, (f s).1, (f s).2, 0)) ∧
    (cachedCall ttl key f (cache.deleteKey key).1 s).2.2.2 = 1 := by
  refine ⟨?_, ?_, ?_, ?_⟩
  · intro h
    simp [cachedCall, h]
  · intro h
    simp [cachedCall, h]
  · intro h hv
    have h1 : (cachedCall ttl key f cache s).1 =
        (cache.get key).1.set key (f s).2 ttl := by
      simp [cachedCall, h]
    rw [h1]
    have hget := CacheState.get_set ((cache.get key).1) key (f s).2 ttl
    simp [cachedCall, hget, hv]
  · have hdel := CacheState.get_deleteKey cache key
    simp [cachedCall, hdel, JSVal.truthy]

/-- The counter state transformer of the cache test, altered to always
return `0`: it bumps the counter and returns the (falsy) value `0`. -/
def zeroCounter : Nat → Nat × JSVal := fun n => (n + 1, .vNum 0)

/-- The outcome of a first memoized call of `zeroCounter` on an empty
cache. -/
def c8first : CacheState × Nat × JSVal × Nat :=
  cachedCall 600 "cf.TestCase.incAndReturn()" zeroCounter ⟨[], 0⟩ 0

/-- Counterexample for C8 as stated: after the first call the derived
key is present in the cache (`has` is true), yet the second invocation
still invokes the wrapped method (its invocation count is 1, and the
counter state advances from 1 to 2), because the wrapper tests the
cached value for truthiness and the cached value `0` is falsy. -/
theorem cached_call_claim_cex :
    c8first.1.has "cf.TestCase.incAndReturn()" = true ∧
    c8first.2.2.2 = 1 ∧
    (cachedCall 600 "cf.TestCase.incAndReturn()" zeroCounter
        c8first.1 c8first.2.1).2.2.2 = 1 ∧
    (cachedCall 600 "cf.TestCase.incAndReturn()" zeroCounter
        c8first.1 c8first.2.1).2.1 = 2 := by
  exact ⟨rfl, rfl, rfl, rfl⟩

/-- The counter state transformer of the cache test: bump the counter
and return its (truthy) new value. -/
def incCounter : Nat → Nat × JSVal := fun n => (n + 1, .vNum (n + 1))

/-- An empty cache at clock 0. -/
def cacheC8 : CacheState := ⟨[], 0⟩

/-- Witness for C8 (amended): on an empty cache, the first call of the
counter runs the computation once and stores `1`; the immediate second
call returns the cached `1` without running the computation; after
deleting the key the next call recomputes. -/
theorem cached_call_amended_witness :
    cachedCall 600 "k" incCounter cacheC8 0 =
      ((cacheC8.get "k").1.set "k" (incCounter 0).2 600,
        (incCounter 0).1, (incCounter 0).2, 1) ∧
    cachedCall 600 "k" incCounter
        (cachedCall 600 "k" incCounter cacheC8 0).1 (incCounter 0).1 =
      ((cachedCall 600 "k" incCounter cacheC8 0).1,
        (incCounter 0).1, (incCounter 0).2, 0) ∧
    (cachedCall 600 "k" incCounter (cacheC8.deleteKey "k").1 0).2.2.2 = 1 := by
  refine ⟨?_, ?_, ?_⟩
  · exact (cached_call_amended 600 "k" incCounter cacheC8 0).2.1 rfl
  · exact (cached_call_amended 600 "k" incCounter cacheC8 0).2.2.1 rfl rfl
  · exact (cached_call_amended 600 "k" incCounter cacheC8 0).2.2.2

/-- Claim C9 (amended): declaring a field on a class under a name
already declared replaces the entry in the field-type map, but appends
the name to the class's field list again, producing a duplicate entry —
re-declaration is not idempotent on the field list. -/
theorem field_redeclaration_amended (t : FieldType) (c : FieldConfig)
    (shd : Bool) (n : String) (s s' : Schema)
    (hmem : n ∈ s.fields)
    (h : setupField t c shd n s = .ok s') :
    s'.fields = s.fields ++ [n] ∧
    s'.fields.count n = s.fields.count n + 1 ∧
    alistGet s'.fieldTypes n = some t ∧
    ¬ s'.fields.Nodup := by
  unfold setupField at h
  split at h
  · exact absurd h (by simp)
  · cases h
    refine ⟨rfl, by simp, alistGet_spreadPut_self _ _ _, ?_⟩
    intro hnd
    have := hnd.sublist (List.sublist_append_right _ _)
    have hx : n ∈ s.fields ++ [n] := by simp
    exact (List.disjoint_of_nodup_append hnd hmem (by simp)).elim

/-- The schema state after a first declaration of field `"f"`. -/
def schemaC9 : Schema :=
  { fields := ["f"], fieldTypes := [("f", .number)], defaults := []
    requiredFields := [], restrictedFields := [], rejectedFields := []
    autoTrimFields := ["f"] }

/-- The schema state after re-declaring `"f"` as a string field. -/
def schemaC9' : Schema :=
  match setupField .string {} false "f" schemaC9 with
  | .ok s => s
  | .error _ => Schema.empty

/-- Counterexample for C9 as stated: re-declaring `"f"` produces the
field list `["f", "f"]` — a duplicate entry, not a replacement. -/
theorem field_redeclaration_claim_cex :
    setupField .string {} false "f" schemaC9 = .ok schemaC9' ∧
    schemaC9'.fields = ["f", "f"] ∧
    ¬ (["f", "f"] : List String).Nodup := by
  refine ⟨rfl, rfl, by decide⟩

section ValidateFoldLemmas

theorem vatStep_id (cls : ModelClass) (acc : Instance) :
    vatStep cls acc "_id" = .ok acc := by
  simp [vatStep]

theorem vatStep_preserves (cls : ModelClass) (acc acc' : Instance)
    (fld g : String) (h : vatStep cls acc fld = .ok acc') (hg : g ≠ fld) :
    acc'.values g = acc.values g := by
  unfold vatStep at h
  by_cases hid : (fld == "_id") = true
  · rw [if_pos hid] at h
    cases h
    rfl
  · rw [if_neg (by simpa using hid)] at h
    cases hval : validateField fld (acc.values fld)
        ((alistGet cls.schema.fieldTypes fld).getD .any)
        (cls.schema.requiredFields.contains fld)
        (cls.schema.autoTrimFields.contains fld) with
    | error e => rw [hval] at h; cases h
    | ok _ =>
      rw [hval] at h
      cases h
      have hgf : (g == fld) = false := by simpa using hg
      split
      · simp [Instance.setField, hgf, hg]
      · rfl

theorem vatStep_preserves_id (cls : ModelClass) (acc acc' : Instance)
    (fld : String) (h : vatStep cls acc fld = .ok acc') :
    acc'.values "_id" = acc.values "_id" := by
  by_cases hfld : fld = "_id"
  · subst hfld
    rw [vatStep_id] at h
    cases h
    rfl
  · exact vatStep_preserves cls acc acc' fld "_id" h
      (fun hcontra => hfld hcontra.symm)

theorem vatFold_preserves_id (cls : ModelClass) (fs : List String)
    (inst r : Instance)
    (h : List.foldlM (vatStep cls) inst fs = .ok r) :
    r.values "_id" = inst.values "_id" := by
  induction fs generalizing inst with
  | nil =>
    simp only [List.foldlM_nil] at h
    cases h
    rfl
  | cons fld rest ih =>
    rw [List.foldlM_cons] at h
    cases hstep : vatStep cls inst fld with
    | error e => rw [hstep] at h; cases h
    | ok acc =>
      rw [hstep] at h
      simp only [bind, Except.bind] at h
      exact (ih acc h).trans (vatStep_preserves_id cls inst acc fld hstep)

theorem vatFold_preserves_notmem (cls : ModelClass) (fs : List String)
    (inst r : Instance) (g : String) (hg : g ∉ fs)
    (h : List.foldlM (vatStep cls) inst fs = .ok r) :
    r.values g = inst.values g := by
  induction fs generalizing inst with
  | nil =>
    simp only [List.foldlM_nil] at h
    cases h
    rfl
  | cons fld rest ih =>
    rw [List.foldlM_cons] at h
    cases hstep : vatStep cls inst fld with
    | error e => rw [hstep] at h; cases h
    | ok acc =>
      rw [hstep] at h
      simp only [bind, Except.bind] at h
      have hgrest : g ∉ rest := fun hc => hg (List.mem_cons_of_mem _ hc)
      have hgfld : g ≠ fld := fun hc => hg (hc ▸ List.mem_cons_self _ _)
      exact (ih acc hgrest h).trans
        (vatStep_preserves cls inst acc fld g hstep hgfld)


theorem vatFold_autotrim_value (cls : ModelClass) (fs : List String)
    (inst r : Instance) (f : String) (str : String)
    (hf : f ∈ fs) (hnd : fs.Nodup) (hne : f ≠ "_id")
    (hat : cls.schema.autoTrimFields.contains f = true)
    (hs : inst.values f = .vStr str)
    (h : List.foldlM (vatStep cls) inst fs = .ok r) :
    r.values f = .vStr (jsStrTrim str) := by
  induction fs generalizing inst with
  | nil => cases hf
  | cons fld rest ih =>
    rw [List.foldlM_cons] at h
    cases hstep : vatStep cls inst fld with
    | error e => rw [hstep] at h; cases h
    | ok acc =>
      rw [hstep] at h
      simp only [bind, Except.bind] at h
      by_cases hcase : f = fld
      · subst hcase
        have hfr : f ∉ rest := (List.nodup_cons.mp hnd).1
        have hacc : acc.values f = .vStr (jsStrTrim str) := by
          unfold vatStep at hstep
          rw [if_neg (by simpa using hne)] at hstep
          cases hval : validateField f (inst.values f)
              ((alistGet cls.schema.fieldTypes f).getD .any)
              (cls.schema.requiredFields.contains f)
              (cls.schema.autoTrimFields.contains f) with
          | error e => rw [hval] at hstep; cases hstep
          | ok _ =>
            rw [hval] at hstep
            cases hstep
            by_cases hemp : strIsEmpty str = true
            · have hstr : str = "" := by
                cases str with
                | mk l =>
                  simp [strIsEmpty, List.isEmpty_iff] at hemp
                  simp [hemp]
              subst hstr
              have hcond : (cls.schema.autoTrimFields.contains f &&
                  (inst.values f).truthy && (inst.values f).hasTrim) =
                  false := by
                rw [hs]
                simp [JSVal.truthy, strIsEmpty]
              rw [if_neg (by rw [hcond]; simp)]
              rw [hs]
              have h0 : jsStrTrim "" = "" := by decide
              rw [h0]
            · have hemp' : strIsEmpty str = false := by simpa using hemp
              have hcond : (cls.schema.autoTrimFields.contains f &&
                  (inst.values f).truthy && (inst.values f).hasTrim) =
                  true := by
                rw [hs]
                simp only [JSVal.truthy, JSVal.hasTrim, hemp',
                  Bool.not_false, Bool.and_true, hat]
              rw [if_pos hcond]
              simp [Instance.setField, hs, JSVal.trimVal]
        exact (vatFold_preserves_notmem cls rest acc r f hfr h).trans hacc
      · have hfrest : f ∈ rest := by
          cases List.mem_cons.mp hf with
          | inl hx => exact absurd hx hcase
          | inr hx => exact hx
        have hacc : acc.values f = .vStr str := by
          rw [vatStep_preserves cls inst acc fld f hstep hcase, hs]
        exact ih acc hfrest (List.nodup_cons.mp hnd).2 hacc h

theorem validateAndTrim_ok_fold (cls : ModelClass) (inst r : Instance)
    (h : cls.validateAndTrim inst = .ok r) :
    List.foldlM (vatStep cls) inst cls.schema.fields = .ok r := by
  unfold ModelClass.validateAndTrim at h
  cases hfold : List.foldlM (vatStep cls) inst cls.schema.fields with
  | error e => rw [hfold] at h; cases h
  | ok r0 =>
    rw [hfold] at h
    simp only [bind, Except.bind] at h
    cases hchk : cls.checkSubmodel r0 with
    | error e => rw [hchk] at h; cases h
    | ok _ =>
      rw [hchk] at h
      cases h
      rfl

end ValidateFoldLemmas

/-- Claim C10: every field declared without an explicit `autoTrim`
option is registered auto-trim (the destructuring default is
`autoTrim = true` and applies to every field type); consequently
`validate()` trims any string-valued auto-trim field in place; opting
out requires an explicit `autoTrim: false` at declaration. -/
theorem autotrim_default_registration (t : FieldType) (c : FieldConfig)
    (shd : Bool) (n : String) (s s' : Schema) :
    (c.autoTrim = none → setupField t c shd n s = .ok s' →
      s'.autoTrimFields = s.autoTrimFields ++ [n]) ∧
    (c.autoTrim = some false → setupField t c shd n s = .ok s' →
      s'.autoTrimFields = s.autoTrimFields) ∧
    (∀ (cls : ModelClass) (inst r : Instance) (f str : String),
      cls.schema.fields.Nodup → f ∈ cls.schema.fields → f ≠ "_id" →
      cls.schema.autoTrimFields.contains f = true →
      inst.values f = .vStr str →
      cls.validateAndTrim inst = .ok r →
      r.values f = .vStr (jsStrTrim str)) := by
  refine ⟨?_, ?_, ?_⟩
  · intro hat h
    unfold setupField at h
    split at h
    · cases h
    · cases h
      simp [hat]
  · intro hat h
    unfold setupField at h
    split at h
    · cases h
    · cases h
      simp [hat]
  · intro cls inst r f str hnd hf hne hat hs h
    exact vatFold_autotrim_value cls cls.schema.fields inst r f str hf hnd
      hne hat hs (validateAndTrim_ok_fold cls inst r h)

section UpdateLemmas

theorem updFold_values (cls : ModelClass) (data : Doc) (fs : List String)
    (acc : Instance) (g : String) :
    (fs.foldl
      (fun a fld =>
        if hasKey data fld && !cls.schema.rejectedFields.contains fld
            && fld != "_id" then
          a.setField fld ((getKey data fld).getD .vUndefined)
        else a) acc).values g =
    if (fs.contains g && (hasKey data g &&
        !cls.schema.rejectedFields.contains g && g != "_id")) = true then
      (getKey data g).getD .vUndefined
    else acc.values g := by
  induction fs generalizing acc with
  | nil => simp
  | cons fld rest ih =>
    rw [List.foldl_cons, ih]
    by_cases hcond : (hasKey data g && !cls.schema.rejectedFields.contains g
        && g != "_id") = true
    · by_cases hr : rest.contains g = true
      · have hL : (rest.contains g && (hasKey data g &&
            !cls.schema.rejectedFields.contains g && g != "_id")) = true := by
          rw [hr, hcond]
          try rfl
        have hR : ((fld :: rest).contains g && (hasKey data g &&
            !cls.schema.rejectedFields.contains g && g != "_id")) = true := by
          rw [List.contains_cons, hr, Bool.or_true, hcond]
          try rfl
        conv_rhs => rw [if_pos hR]
        rw [if_pos hL]
      · have hr' : rest.contains g = false := by simpa using hr
        have hL : (rest.contains g && (hasKey data g &&
            !cls.schema.rejectedFields.contains g && g != "_id")) = false := by
          rw [hr', Bool.false_and]
        rw [if_neg (by rw [hL]; exact Bool.false_ne_true)]
        by_cases hf : (g == fld) = true
        · have hgf : g = fld := by simpa using hf
          have hcondf : (hasKey data fld &&
              !cls.schema.rejectedFields.contains fld && fld != "_id") =
              true := by rw [← hgf]; exact hcond
          have hR : ((fld :: rest).contains g && (hasKey data g &&
              !cls.schema.rejectedFields.contains g && g != "_id")) =
              true := by
            rw [List.contains_cons, hf, Bool.true_or, Bool.true_and, hcond]
            try rfl
          conv_rhs => rw [if_pos hR]
          rw [if_pos hcondf]
          simp [Instance.setField, hf, hgf]
        · have hf' : (g == fld) = false := by simpa using hf
          have hR : ((fld :: rest).contains g && (hasKey data g &&
              !cls.schema.rejectedFields.contains g && g != "_id")) =
              false := by
            rw [List.contains_cons, hf', hr', Bool.or_self, Bool.false_and]
          conv_rhs => rw [if_neg (by rw [hR]; exact Bool.false_ne_true)]
          split
          · simp [Instance.setField, hf', show g ≠ fld by simpa using hf]
          · rfl
    · have hcond' : (hasKey data g && !cls.schema.rejectedFields.contains g
          && g != "_id") = false := by simpa using hcond
      have hL : (rest.contains g && (hasKey data g &&
          !cls.schema.rejectedFields.contains g && g != "_id")) = false := by
        rw [hcond', Bool.and_false]
      have hR : ((fld :: rest).contains g && (hasKey data g &&
          !cls.schema.rejectedFields.contains g && g != "_id")) = false := by
        rw [hcond', Bool.and_false]
      conv_rhs => rw [if_neg (by rw [hR]; exact Bool.false_ne_true)]
      rw [if_neg (by rw [hL]; exact Bool.false_ne_true)]
      split
      · rename_i hstep
        by_cases hf : (g == fld) = true
        · have hgf : g = fld := by simpa using hf
          rw [hgf] at hcond'
          rw [hstep] at hcond'
          cases hcond'
        · simp [Instance.setField,
            show (g == fld) = false by simpa using hf,
            show g ≠ fld by simpa using hf]
      · rfl

end UpdateLemmas

/-- Claim C4: the merge loop of `update(partial)` writes onto the
instance exactly those entries of `partial` whose key is a declared
field that is neither rejected nor the identifier; rejected fields and
the identifier keep their values, with no error raised (the merge is
total); `update` then calls `save()` on the merged instance. -/
theorem update_applies_allowed_fields (sh : ShardState) (cls : ModelClass)
    (inst : Instance) (data : Doc) :
    (∀ g, (applyUpdateData cls inst data).values g =
      if (cls.schema.fields.contains g && (hasKey data g &&
          !cls.schema.rejectedFields.contains g && g != "_id")) = true then
        (getKey data g).getD .vUndefined
      else inst.values g) ∧
    sh.update cls inst data = sh.save cls (applyUpdateData cls inst data) := by
  refine ⟨?_, rfl⟩
  intro g
  unfold applyUpdateData
  exact updFold_values cls data cls.schema.fields inst g

section MakeLemmas

theorem make_nonSubmodel (cls : ModelClass) (data : Doc)
    (hsub : cls.isSubmodel = false) :
    cls.make data =
      .ok ((cls.newInstance
        (if cls.isSharded then shardIdOf data else .vNull)).fillFields
          cls.schema data) := by
  cases cls with
  | mk nm sch shd isSub subName loaders =>
    simp only [ModelClass.isSubmodel] at hsub
    subst hsub
    rw [ModelClass.make.eq_def]
    simp [ModelClass.finishMake, ModelClass.checkSubmodel,
      ModelClass.isSubmodel, ModelClass.isSharded, ModelClass.schema]

end MakeLemmas

/-- Claim C1 (amended): for every declared field the factory
`make(data)` sets the field to `data[field]` when the key is present
with a non-null value, otherwise to the resolved declared default
(cloned array, invoked generator, or plain value), otherwise to
`null`; the identifier field has no special case — it is left `null`,
making the instance New, exactly when `data` does not supply it and no
default is declared for it. -/
theorem make_field_fill_amended (cls : ModelClass) (data : Doc)
    (hsub : cls.isSubmodel = false) :
    ∃ inst, cls.make data = .ok inst ∧
      (∀ f v, cls.schema.fields.contains f = true → getKey data f = some v →
        v.isNull = false → inst.values f = v) ∧
      (∀ f d, cls.schema.fields.contains f = true →
        ((getKey data f).getD .vNull).isNull = true →
        alistGet cls.schema.defaults f = some d →
        inst.values f = d.resolve) ∧
      (∀ f, cls.schema.fields.contains f = true →
        ((getKey data f).getD .vNull).isNull = true →
        alistGet cls.schema.defaults f = none → inst.values f = .vNull) ∧
      (cls.schema.fields.contains "_id" = true → getKey data "_id" = none →
        alistGet cls.schema.defaults "_id" = none →
        inst.isNew = true) := by
  refine ⟨_, make_nonSubmodel cls data hsub, ?_, ?_, ?_, ?_⟩
  · intro f v hf hgk hnn
    have hfm : f ∈ cls.schema.fields := by simpa using hf
    simp [Instance.fillFields, hfm, fillValue, hgk, hnn]
  · intro f d hf hnul hdef
    have hfm : f ∈ cls.schema.fields := by simpa using hf
    cases hgk : getKey data f with
    | none =>
      simp [Instance.fillFields, hfm, fillValue, hgk, hdef, JSVal.isNull]
    | some v =>
      rw [hgk] at hnul
      simp only [Option.getD_some] at hnul
      simp [Instance.fillFields, hfm, fillValue, hgk, hnul, hdef]
  · intro f hf hnul hdef
    have hfm : f ∈ cls.schema.fields := by simpa using hf
    cases hgk : getKey data f with
    | none =>
      simp [Instance.fillFields, hfm, fillValue, hgk, hdef, JSVal.isNull]
    | some v =>
      rw [hgk] at hnul
      simp only [Option.getD_some] at hnul
      simp [Instance.fillFields, hfm, fillValue, hgk, hnul, hdef]
  · intro hf hgk hdef
    have hfm : "_id" ∈ cls.schema.fields := by simpa using hf
    simp [Instance.isNew, Instance.fillFields, hfm, fillValue, hgk, hdef,
      JSVal.isNull]

section SubmodelLemmas

theorem fillFields_value_mem (inst : Instance) (sch : Schema) (data : Doc)
    (f : String) (hf : sch.fields.contains f = true) :
    (inst.fillFields sch data).values f = fillValue sch data f := by
  have hfm : f ∈ sch.fields := by simpa using hf
  simp [Instance.fillFields, hfm]

theorem fillValue_present_nonnull (sch : Schema) (data : Doc) (f : String)
    (v : JSVal) (hgk : getKey data f = some v) (hnn : v.isNull = false) :
    fillValue sch data f = v := by
  simp [fillValue, hgk, hnn]

theorem finishMake_submodel_ok (cls : ModelClass) (data : Doc) (s : String)
    (hsub : cls.isSubmodel = true) (hsome : cls.submodel = some s)
    (hfld : cls.schema.fields.contains "submodel" = true)
    (hgk : getKey data "submodel" = some (.vStr s)) :
    cls.finishMake data =
      .ok ((cls.newInstance
        (if cls.isSharded then shardIdOf data else .vNull)).fillFields
          cls.schema data) := by
  unfold ModelClass.finishMake
  have hval : ((cls.newInstance
      (if cls.isSharded then shardIdOf data else .vNull)).fillFields
        cls.schema data).values "submodel" = .vStr s := by
    rw [fillFields_value_mem _ _ _ _ hfld]
    exact fillValue_present_nonnull _ _ _ _ hgk rfl
  have hchk : cls.checkSubmodel
      ((cls.newInstance
        (if cls.isSharded then shardIdOf data else .vNull)).fillFields
          cls.schema data) = .ok () := by
    unfold ModelClass.checkSubmodel
    rw [hsub, hval, hsome]
    simp [submodelMatches]
  rw [hchk]

end SubmodelLemmas

/-- Claim C7 (amended): loading an existing document (truthy `_id`)
through an abstract base of a polymorphic family dispatches `make` to
the concrete class registered under the document's discriminator and
constructs an instance of that class; an unregistered discriminator
value fails with `WrongSubmodel` (the legacy `fromData` path of the
earlier `storable_submodel.ts` raised `UnknownSubmodel` here); a
document without a discriminator field fails with
`MissingSubmodel`. -/
theorem submodel_load_dispatch (cls : ModelClass) (data : Doc)
    (hsub : cls.isSubmodel = true) (habs : cls.submodel = none)
    (hid : truthyAt data "_id" = true) :
    (getKey data "submodel" = none →
      ∃ m, cls.make data = .error (.missingSubmodel m)) ∧
    (∀ s, getKey data "submodel" = some (.vStr s) → strIsEmpty s = false →
      lookupLoader cls.loaders s = none →
      ∃ m, cls.make data = .error (.wrongSubmodel m)) ∧
    (∀ s sub, getKey data "submodel" = some (.vStr s) →
      strIsEmpty s = false → lookupLoader cls.loaders s = some sub →
      cls.make data = sub.make data) ∧
    (∀ s sub, getKey data "submodel" = some (.vStr s) →
      strIsEmpty s = false → lookupLoader cls.loaders s = some sub →
      sub.isSubmodel = true → sub.submodel = some s →
      sub.schema.fields.contains "submodel" = true →
      ∃ inst, cls.make data = .ok inst ∧ inst.ofClass = sub.name) := by
  cases cls with
  | mk nm sch shd isSub subName loaders =>
    simp only [ModelClass.isSubmodel] at hsub
    simp only [ModelClass.submodel] at habs
    subst hsub
    subst habs
    have hdisp : ∀ s sub, getKey data "submodel" = some (.vStr s) →
        strIsEmpty s = false →
        lookupLoader loaders s = some sub →
        (ModelClass.mk nm sch shd true none loaders).make data =
          sub.make data := by
      intro s sub hgk hne hlook
      rw [ModelClass.make.eq_def]
      have htr : (JSVal.vStr s).truthy = true := by
        simp [JSVal.truthy, hne]
      simp only [hid, Bool.not_true, Bool.false_eq_true, ite_false,
        ite_true, hgk, Option.getD_some, htr, JSVal.propKey]
      split
      · rename_i heq
        rw [hgk] at heq
        simp only [Option.getD_some] at heq
        rw [hlook] at heq
        cases heq
      · rename_i properCtor heq
        rw [hgk] at heq
        simp only [Option.getD_some] at heq
        rw [hlook] at heq
        cases heq
        rfl
    refine ⟨?_, ?_, hdisp, ?_⟩
    · intro hgk
      refine ⟨s!"{nm} has no submodel in DB. Bug?", ?_⟩
      rw [ModelClass.make.eq_def]
      simp [hid, hgk, JSVal.truthy]
    · intro s hgk hne hlook
      refine ⟨s!"Model {s} is not registered in {nm}", ?_⟩
      rw [ModelClass.make.eq_def]
      have htr : (JSVal.vStr s).truthy = true := by
        simp [JSVal.truthy, hne]
      simp only [hid, Bool.not_true, Bool.false_eq_true, ite_false,
        ite_true, hgk, Option.getD_some, htr, JSVal.propKey]
      split
      · rfl
      · rename_i properCtor heq
        simp only [ModelClass.loaders] at hlook
        rw [hgk] at heq
        simp only [Option.getD_some] at heq
        rw [hlook] at heq
        cases heq
    · intro s sub hgk hne hlook hsub2 hsome2 hfld2
      rw [hdisp s sub hgk hne hlook]
      cases sub with
      | mk nm2 sch2 shd2 isSub2 subName2 loaders2 =>
        simp only [ModelClass.isSubmodel] at hsub2
        simp only [ModelClass.submodel] at hsome2
        subst hsub2
        subst hsome2
        have hfin : (ModelClass.mk nm2 sch2 shd2 true (some s)
            loaders2).make data =
            .ok (((ModelClass.mk nm2 sch2 shd2 true (some s)
              loaders2).newInstance
                (if (ModelClass.mk nm2 sch2 shd2 true (some s)
                  loaders2).isSharded then shardIdOf data
                 else .vNull)).fillFields
                  (ModelClass.mk nm2 sch2 shd2 true (some s)
                    loaders2).schema data) := by
          rw [ModelClass.make.eq_def]
          have htr : (JSVal.vStr s).truthy = true := by
            simp [JSVal.truthy, hne]
          simp only [hid, Bool.not_true, Bool.false_eq_true, ite_false,
            ite_true, hgk, Option.getD_some, htr]
          exact finishMake_submodel_ok
            (ModelClass.mk nm2 sch2 shd2 true (some s) loaders2) data s rfl
            rfl hfld2 hgk
        exact ⟨_, hfin, rfl⟩

/-- The shared schema of the `Shape` polymorphic family. -/
def schemaShape : Schema :=
  { fields := ["_id", "submodel"]
    fieldTypes := [("_id", .objectid), ("submodel", .string)]
    defaults := [], requiredFields := ["submodel"], restrictedFields := []
    rejectedFields := [], autoTrimFields := ["_id", "submodel"] }

/-- The concrete class registered under discriminator `"circle"`. -/
def clsCircle : ModelClass :=
  .mk "Circle" schemaShape false true (some "circle") []

/-- The abstract base of the family, with `"circle"` registered. -/
def clsShape : ModelClass :=
  .mk "Shape" schemaShape false true none [("circle", clsCircle)]

/-- A stored document of the family with discriminator `"circle"`. -/
def docCircle : Doc :=
  [("_id", .vObjectId 3), ("submodel", .vStr "circle")]

/-- A stored document with an unregistered discriminator. -/
def docUnreg : Doc :=
  [("_id", .vObjectId 3), ("submodel", .vStr "square")]

/-- A stored document with no discriminator field. -/
def docNoSub : Doc :=
  [("_id", .vObjectId 3)]

/-- Counterexample for C7 as stated: loading a document with an
unregistered discriminator through the abstract base fails with
`WrongSubmodel` (message `Model square is not registered in Shape`),
not with `UnknownSubmodel` as the claim names. -/
theorem submodel_unregistered_error_kind_cex :
    clsShape.make docUnreg =
      .error (.wrongSubmodel "Model square is not registered in Shape") ∧
    isWrongSubmodelErr (clsShape.make docUnreg) = true ∧
    isUnknownSubmodelErr (clsShape.make docUnreg) = false := by
  have h : clsShape.make docUnreg =
      .error (.wrongSubmodel "Model square is not registered in Shape") := by
    rw [ModelClass.make.eq_def]
    rfl
  exact ⟨h, by rw [h]; rfl, by rw [h]; rfl⟩

/-- Witness for C7 (amended) at the `Shape`/`Circle` family: the
document tagged `"circle"` loads as a `Circle` instance; the untagged
document fails with `MissingSubmodel`; the `"square"` document fails
with `WrongSubmodel`. -/
theorem submodel_load_dispatch_witness :
    (clsShape.make docCircle).map (fun i => i.ofClass) = .ok "Circle" ∧
    isMissingSubmodelErr (clsShape.make docNoSub) = true ∧
    isWrongSubmodelErr (clsShape.make docUnreg) = true := by
  have hd := submodel_load_dispatch clsShape docCircle rfl rfl rfl
  obtain ⟨inst, hmk, hof⟩ :=
    hd.2.2.2 "circle" clsCircle rfl rfl rfl rfl rfl rfl
  have hn := submodel_load_dispatch clsShape docNoSub rfl rfl rfl
  obtain ⟨m1, hm1⟩ := hn.1 rfl
  have hu := submodel_load_dispatch clsShape docUnreg rfl rfl rfl
  obtain ⟨m2, hm2⟩ := hu.2.1 "square" rfl rfl rfl
  refine ⟨?_, ?_, ?_⟩
  · rw [hmk]
    simp [Except.map, hof, clsCircle, ModelClass.name]
  · rw [hm1]
    rfl
  · rw [hm2]
    rfl

/-- Schema of the concrete `User` class: identifier, a required string
and a defaulted string. -/
def schemaC1 : Schema :=
  { fields := ["_id", "username", "department"]
    fieldTypes :=
      [("_id", .objectid), ("username", .string), ("department", .string)]
    defaults := [("department", .val (.vStr "IT"))]
    requiredFields := ["username"], restrictedFields := []
    rejectedFields := [], autoTrimFields := ["username", "department"] }

/-- A plain storable `User` class over `schemaC1`. -/
def clsC1 : ModelClass :=
  .mk "User" schemaC1 false false none []

/-- Counterexample for C1 as stated: loading data that carries an
identifier does not leave the identifier field null — `make` assigns
`data._id` like any other declared field, and the instance is not
New. -/
theorem make_identifier_claim_cex :
    (clsC1.make [("_id", .vObjectId 7), ("username", .vStr "bob")]).map
      (fun i => (i.values "_id", i.isNew)) = .ok (.vObjectId 7, false) := by
  rw [make_nonSubmodel clsC1 _ rfl]
  rfl

/-- Witness for C1 (amended) at the concrete `User` class: an explicit
value wins, an absent (or null) key falls back to the declared
default, a field with neither stays null, and an instance made without
`_id` is New. -/
theorem make_field_fill_amended_witness :
    (clsC1.make [("username", .vStr "paul"), ("department", .vNull)]).map
        (fun i =>
          (i.values "username", i.values "department", i.values "_id",
            i.isNew)) =
      .ok (.vStr "paul", .vStr "IT", .vNull, true) := by
  obtain ⟨inst, hmk, hval, hdef, hnul, hnew⟩ :=
    make_field_fill_amended clsC1
      [("username", .vStr "paul"), ("department", .vNull)] rfl
  rw [hmk]
  have h1 := hval "username" (.vStr "paul") (by decide) rfl rfl
  have h2 := hdef "department" (.val (.vStr "IT")) (by decide) rfl rfl
  have h3 := hnul "_id" (by decide) rfl rfl
  have h4 := hnew (by decide) rfl rfl
  simp [Except.map, h1, h2, h3, h4, FieldDefault.resolve,
    Instance.isNew, JSVal.isNull]

/-- Schema with a normal field, a rejected field and the identifier. -/
def schemaC4 : Schema :=
  { fields := ["_id", "f1", "f2"]
    fieldTypes := [("_id", .objectid), ("f1", .string), ("f2", .string)]
    defaults := [], requiredFields := [], restrictedFields := []
    rejectedFields := ["f1"], autoTrimFields := [] }

/-- A plain storable class over `schemaC4` (field `"f1"` rejected). -/
def clsC4 : ModelClass :=
  .mk "RejectC4" schemaC4 false false none []

/-- A persisted instance of `clsC4`. -/
def instC4 : Instance :=
  ⟨"RejectC4", .vNull, fun g =>
    if g == "_id" then .vObjectId 9
    else if g == "f1" then .vStr "orig1"
    else if g == "f2" then .vStr "orig2"
    else .vUndefined⟩

/-- The partial update touching the rejected field, the identifier and
the updatable field. -/
def dataC4 : Doc :=
  [("f1", .vStr "new1"), ("f2", .vStr "new2"), ("_id", .vObjectId 13)]

/-- Witness for C4: the merge overwrites `"f2"`, silently keeps the
rejected `"f1"` and the identifier, and `update` is `save` after the
merge. -/
theorem update_applies_allowed_fields_witness :
    (applyUpdateData clsC4 instC4 dataC4).values "f2" = .vStr "new2" ∧
    (applyUpdateData clsC4 instC4 dataC4).values "f1" = .vStr "orig1" ∧
    (applyUpdateData clsC4 instC4 dataC4).values "_id" = .vObjectId 9 ∧
    ShardState.update ⟨none, true, [], 0⟩ clsC4 instC4 dataC4 =
      ShardState.save ⟨none, true, [], 0⟩ clsC4
        (applyUpdateData clsC4 instC4 dataC4) := by
  have h := update_applies_allowed_fields ⟨none, true, [], 0⟩ clsC4 instC4
    dataC4
  refine ⟨?_, ?_, ?_, h.2⟩
  · rw [h.1 "f2"]
    rfl
  · rw [h.1 "f1"]
    rfl
  · rw [h.1 "_id"]
    rfl

/-- A throw-away instance used as the default of `unwrapOk`. -/
def defaultInstance : Instance :=
  ⟨"", .vNull, fun _ => .vUndefined⟩

/-- Unwrap an `ok` result, with a default for the error case. -/
def unwrapOk {α : Type} (d : α) : Except UErr α → α
  | .ok x => x
  | .error _ => d

/-- Schema of a single non-required auto-trim string field `"u"`. -/
def schemaC10 : Schema :=
  { fields := ["u"], fieldTypes := [("u", .string)], defaults := []
    requiredFields := [], restrictedFields := [], rejectedFields := []
    autoTrimFields := ["u"] }

/-- A plain storable class over `schemaC10`. -/
def clsC10 : ModelClass :=
  .mk "UserC10" schemaC10 false false none []

/-- An instance of `clsC10` whose `"u"` value has surrounding
whitespace. -/
def instC10 : Instance :=
  ⟨"UserC10", .vNull, fun g => if g == "u" then .vStr " bob " else .vNull⟩

/-- The instance after `_validateAndTrim`. -/
def instC10' : Instance :=
  unwrapOk defaultInstance (clsC10.validateAndTrim instC10)

/-- The schema produced by declaring `"n"` as a number field with no
explicit `autoTrim` option. -/
def schemaC10n : Schema :=
  unwrapOk Schema.empty
    (match setupField FieldType.number {} false "n" Schema.empty with
     | .ok s => .ok s
     | .error _ => .error (.validationError ""))

/-- The schema produced by declaring `"n"` with `autoTrim: false`. -/
def schemaC10optout : Schema :=
  unwrapOk Schema.empty
    (match setupField FieldType.number { autoTrim := some false } false "n"
        Schema.empty with
     | .ok s => .ok s
     | .error _ => .error (.validationError ""))

/-- Witness for C10: a number field declared without `autoTrim` lands
in the auto-trim list; with `autoTrim: false` it does not; and
validating `clsC10` trims `" bob "` to `"bob"` in place. -/
theorem autotrim_default_registration_witness :
    schemaC10n.autoTrimFields = [] ++ ["n"] ∧
    schemaC10optout.autoTrimFields = ([] : List String) ∧
    instC10'.values "u" = .vStr (jsStrTrim " bob ") ∧
    jsStrTrim " bob " = "bob" := by
  refine ⟨?_, ?_, ?_, by decide⟩
  · exact (autotrim_default_registration FieldType.number {} false "n"
      Schema.empty schemaC10n).1 rfl rfl
  · exact (autotrim_default_registration FieldType.number
      { autoTrim := some false } false "n" Schema.empty schemaC10optout).2.1
      rfl rfl
  · exact (autotrim_default_registration FieldType.number {} false "n"
      Schema.empty Schema.empty).2.2 clsC10 instC10 instC10' "u" " bob "
      (by decide) (by decide) (by decide) rfl rfl rfl

/-- Witness for C9 (amended) at the concrete schema: the re-declared
field list is `["f"] ++ ["f"]` with count 2, the type-map entry is
replaced by `string`, and the list is no longer duplicate-free. -/
theorem field_redeclaration_amended_witness :
    "f" ∈ schemaC9.fields ∧
    (schemaC9'.fields = schemaC9.fields ++ ["f"] ∧
      schemaC9'.fields.count "f" = schemaC9.fields.count "f" + 1 ∧
      alistGet schemaC9'.fieldTypes "f" = some .string ∧
      ¬ schemaC9'.fields.Nodup) := by
  exact ⟨by decide,
    field_redeclaration_amended .string {} false "f" schemaC9 schemaC9'
      (by decide) rfl⟩

section SaveLemmas

theorem jsBeq_objectId_refl (i : Nat) :
    jsBeq (.vObjectId i) (.vObjectId i) = true := by
  simp [jsBeq]

theorem validateAndTrim_preserves_id (cls : ModelClass) (inst r : Instance)
    (h : cls.validateAndTrim inst = .ok r) :
    r.values "_id" = inst.values "_id" :=
  vatFold_preserves_id cls cls.schema.fields inst r
    (validateAndTrim_ok_fold cls inst r h)

theorem toObjFold_frame (inst : Instance) (cls : ModelClass) (incR : Bool)
    (fs : List String) (g : String) (hg : g ∉ fs) :
    ∀ obj : Doc,
      getKey (fs.foldl
        (fun obj field =>
          if incR || !cls.schema.restrictedFields.contains field then
            match inst.values field with
            | .vUndefined => obj
            | v => putKey obj field v
          else obj) obj) g = getKey obj g := by
  induction fs with
  | nil => intro obj; rfl
  | cons f0 rest ih =>
    intro obj
    have hgrest : g ∉ rest := fun hc => hg (List.mem_cons_of_mem _ hc)
    have hgf : g ≠ f0 := fun hc => hg (hc ▸ List.mem_cons_self _ _)
    rw [List.foldl_cons, ih hgrest]
    split
    · cases hv : inst.values f0 with
      | vUndefined => rfl
      | vNull => exact getKey_putKey_ne _ _ _ _ hgf
      | vBool b => exact getKey_putKey_ne _ _ _ _ hgf
      | vNum n => exact getKey_putKey_ne _ _ _ _ hgf
      | vStr s => exact getKey_putKey_ne _ _ _ _ hgf
      | vArr xs => exact getKey_putKey_ne _ _ _ _ hgf
      | vObj kv => exact getKey_putKey_ne _ _ _ _ hgf
      | vDate t => exact getKey_putKey_ne _ _ _ _ hgf
      | vObjectId n => exact getKey_putKey_ne _ _ _ _ hgf
    · rfl

theorem toObjFold_mem (inst : Instance) (cls : ModelClass) (incR : Bool)
    (fs : List String) (f : String) (hf : f ∈ fs)
    (hcond : (incR || !cls.schema.restrictedFields.contains f) = true)
    (hnu : inst.values f ≠ .vUndefined) :
    ∀ obj : Doc,
      getKey (fs.foldl
        (fun obj field =>
          if incR || !cls.schema.restrictedFields.contains field then
            match inst.values field with
            | .vUndefined => obj
            | v => putKey obj field v
          else obj) obj) f = some (inst.values f) := by
  induction fs with
  | nil => cases hf
  | cons f0 rest ih =>
    intro obj
    by_cases hr : f ∈ rest
    · rw [List.foldl_cons]
      exact ih hr _
    · have hff0 : f = f0 := by
        cases List.mem_cons.mp hf with
        | inl hx => exact hx
        | inr hx => exact absurd hx hr
      subst hff0
      rw [List.foldl_cons, toObjFold_frame inst cls incR rest f hr]
      rw [if_pos hcond]
      cases hv : inst.values f with
      | vUndefined => exact absurd hv hnu
      | vNull => exact getKey_putKey_self _ _ _
      | vBool b => exact getKey_putKey_self _ _ _
      | vNum n => exact getKey_putKey_self _ _ _
      | vStr s => exact getKey_putKey_self _ _ _
      | vArr xs => exact getKey_putKey_self _ _ _
      | vObj kv => exact getKey_putKey_self _ _ _
      | vDate t => exact getKey_putKey_self _ _ _
      | vObjectId n => exact getKey_putKey_self _ _ _

theorem getKey_toObject_all (inst : Instance) (cls : ModelClass)
    (f : String) (hf : f ∈ cls.schema.fields)
    (hnu : inst.values f ≠ .vUndefined) :
    getKey (inst.toObject cls none true) f = some (inst.values f) := by
  unfold Instance.toObject
  simp only [Option.getD_none]
  exact toObjFold_mem inst cls true cls.schema.fields f hf
    (by rw [Bool.true_or]) hnu []

theorem replaceOneById_carries (docs : List Doc) (idVal : JSVal)
    (data : Doc) (h : idMatches data idVal = true) :
    ∃ d ∈ replaceOneById docs idVal data, idMatches d idVal = true := by
  induction docs with
  | nil => exact ⟨data, by simp [replaceOneById], h⟩
  | cons d0 rest ih =>
    unfold replaceOneById
    split
    · exact ⟨data, by simp, h⟩
    · obtain ⟨d, hd, hdm⟩ := ih
      exact ⟨d, List.mem_cons_of_mem _ hd, hdm⟩

theorem replaceOneById_length (docs : List Doc) (idVal : JSVal)
    (data : Doc) (h : ∃ d ∈ docs, idMatches d idVal = true) :
    (replaceOneById docs idVal data).length = docs.length := by
  induction docs with
  | nil =>
    obtain ⟨d, hd, _⟩ := h
    cases hd
  | cons d0 rest ih =>
    unfold replaceOneById
    split
    · simp
    · rename_i hnm
      obtain ⟨d, hd, hdm⟩ := h
      cases List.mem_cons.mp hd with
      | inl hx =>
        subst hx
        rw [hdm] at hnm
        exact absurd rfl hnm
      | inr hx =>
        simp only [List.length_cons]
        rw [ih ⟨d, hx, hdm⟩]

end SaveLemmas

/-- Claim C3: calling `save()` on an already persisted instance
(identifier non-null) performs a full replace through
`coll.replaceOne` — never `insertOne` — and a second `save()` does the
same against the document stored by the first, so no second document
is created (the document count and the ObjectID source are unchanged)
and the identifier keeps its value across both calls. -/
theorem save_twice_replaces (sh : ShardState) (cls : ModelClass)
    (inst inst1 inst2 : Instance) (i : Nat) (r1 r2 : OpResult Instance)
    (hid : inst.values "_id" = .vObjectId i)
    (hfid : "_id" ∈ cls.schema.fields)
    (h1 : sh.save cls inst = r1) (hr1 : r1.result = .ok inst1)
    (h2 : r1.state.save cls inst1 = r2) (hr2 : r2.result = .ok inst2) :
    inst1.values "_id" = .vObjectId i ∧
    inst2.values "_id" = .vObjectId i ∧
    r1.calls = [.replaceOne] ∧ r2.calls = [.replaceOne] ∧
    r2.state.docs.length = r1.state.docs.length ∧
    r2.state.nextId = r1.state.nextId := by
  unfold ShardState.save at h1
  cases hv1 : cls.validateAndTrim inst with
  | error e =>
    rw [hv1] at h1
    subst h1
    simp at hr1
  | ok instT =>
    rw [hv1] at h1
    have hidT : instT.values "_id" = .vObjectId i := by
      rw [validateAndTrim_preserves_id cls inst instT hv1, hid]
    unfold ShardState.saveObj at h1
    cases hopen : sh.isOpen with
    | false =>
      rw [hopen] at h1
      simp only [Bool.not_false, ite_true] at h1
      subst h1
      simp at hr1
    | true =>
      rw [hopen] at h1
      simp only [Bool.not_true, Bool.false_eq_true, ite_false] at h1
      have hnew : instT.isNew = false := by
        simp [Instance.isNew, hidT, JSVal.isNull]
      rw [hnew] at h1
      simp only [Bool.false_eq_true, ite_false] at h1
      subst h1
      simp only at hr1
      have hinst1 : inst1 = instT := by
        have := hr1
        simp only [Except.ok.injEq] at this
        exact this.symm
      subst hinst1
      -- the document written by the first save carries the identifier
      have hdoc1 : idMatches (inst1.toObject cls none true)
          (.vObjectId i) = true := by
        unfold idMatches
        rw [getKey_toObject_all inst1 cls "_id" hfid
          (by rw [hidT]; intro hc; cases hc)]
        rw [hidT]
        exact jsBeq_objectId_refl i
      -- second save
      unfold ShardState.save at h2
      cases hv2 : cls.validateAndTrim inst1 with
      | error e =>
        rw [hv2] at h2
        subst h2
        simp at hr2
      | ok instT2 =>
        rw [hv2] at h2
        have hidT2 : instT2.values "_id" = .vObjectId i := by
          rw [validateAndTrim_preserves_id cls inst1 instT2 hv2, hidT]
        unfold ShardState.saveObj at h2
        simp only at h2
        simp only [Bool.not_true, Bool.false_eq_true, ite_false] at h2
        have hnew2 : instT2.isNew = false := by
          simp [Instance.isNew, hidT2, JSVal.isNull]
        rw [hnew2] at h2
        simp only [Bool.false_eq_true, ite_false] at h2
        subst h2
        simp only at hr2
        have hinst2 : inst2 = instT2 := by
          have := hr2
          simp only [Except.ok.injEq] at this
          exact this.symm
        subst hinst2
        refine ⟨hidT, hidT2, rfl, rfl, ?_, rfl⟩
        simp only
        rw [hidT, hidT2]
        exact replaceOneById_length _ _ _
          (replaceOneById_carries sh.docs (.vObjectId i)
            (inst1.toObject cls none true) hdoc1)

/-- Schema of the save-twice scenario: an identifier and a plain
string field with no auto-trim. -/
def schemaC3 : Schema :=
  { fields := ["_id", "username"]
    fieldTypes := [("_id", .objectid), ("username", .string)]
    defaults := [], requiredFields := [], restrictedFields := []
    rejectedFields := [], autoTrimFields := [] }

/-- A plain storable class over `schemaC3`. -/
def clsC3 : ModelClass :=
  .mk "UserC3" schemaC3 false false none []

/-- A persisted instance (identifier `ObjectID 1`). -/
def instC3 : Instance :=
  ⟨"UserC3", .vNull, fun g =>
    if g == "_id" then .vObjectId 1
    else if g == "username" then .vStr "bob"
    else .vUndefined⟩

/-- An open meta shard with an empty store. -/
def shardC3 : ShardState := ⟨none, true, [], 0⟩

/-- The outcome of the first `save()`. -/
def rC3a : OpResult Instance := shardC3.save clsC3 instC3

/-- The instance returned by the first `save()`. -/
def instC3a : Instance := unwrapOk defaultInstance rC3a.result

/-- The outcome of the second `save()`. -/
def rC3b : OpResult Instance := rC3a.state.save clsC3 instC3a

/-- The instance returned by the second `save()`. -/
def instC3b : Instance := unwrapOk defaultInstance rC3b.result

/-- Witness for C3 at the concrete persisted instance: both saves go
through `replaceOne` only, the identifier stays `ObjectID 1`, and the
second save leaves the document count and the ObjectID source
unchanged. -/
theorem save_twice_replaces_witness :
    instC3a.values "_id" = .vObjectId 1 ∧
    instC3b.values "_id" = .vObjectId 1 ∧
    rC3a.calls = [.replaceOne] ∧ rC3b.calls = [.replaceOne] ∧
    rC3b.state.docs.length = rC3a.state.docs.length ∧
    rC3b.state.nextId = rC3a.state.nextId :=
  save_twice_replaces shardC3 clsC3 instC3 instC3a instC3b 1 rC3a rC3b
    rfl (by decide) rfl rfl rfl rfl

/-- Claim C6: on a partition configured read-only (`open: false`),
every mutating primitive — insert/replace via `saveObj`, `deleteObj`,
`deleteQuery` (deleteMany), `updateQuery` (updateMany),
`findAndUpdateObject` (findOneAndUpdate) — throws `ShardIsReadOnly`
with no call on the underlying store and no state change, while the
read primitives `getObject` (findOne) and `getObjectsCursor` (find)
remain available and succeed. -/
theorem readonly_shard_enforcement (sh : ShardState) (cls : ModelClass)
    (obj : Instance) (q upd : Doc) (whenCond : Option Doc)
    (hclosed : sh.isOpen = false) :
    sh.saveObj cls obj = ⟨.error (.shardIsReadOnly sh.name), sh, []⟩ ∧
    sh.deleteObj obj = ⟨.error (.shardIsReadOnly sh.name), sh, []⟩ ∧
    sh.deleteQuery q = ⟨.error (.shardIsReadOnly sh.name), sh, []⟩ ∧
    sh.updateQuery q upd = ⟨.error (.shardIsReadOnly sh.name), sh, []⟩ ∧
    sh.findAndUpdateObject obj upd whenCond =
      ⟨.error (.shardIsReadOnly sh.name), sh, []⟩ ∧
    (cls.isSubmodel = false →
      ∃ r, sh.getObject cls q = ⟨.ok r, sh, [.findOne]⟩) ∧
    sh.getObjectsCursor q =
      ⟨.ok (sh.docs.filter (fun d => matchesQuery d q)), sh, [.find]⟩ := by
  refine ⟨?_, ?_, ?_, ?_, ?_, ?_, rfl⟩
  · simp [ShardState.saveObj, hclosed]
  · simp [ShardState.deleteObj, hclosed]
  · simp [ShardState.deleteQuery, hclosed]
  · simp [ShardState.updateQuery, hclosed]
  · simp [ShardState.findAndUpdateObject, hclosed]
  · intro hsub
    unfold ShardState.getObject
    cases hfind : sh.docs.find? (fun d => matchesQuery d q) with
    | none =>
      exact ⟨none, rfl⟩
    | some d =>
      dsimp only
      rw [make_nonSubmodel cls (stampShardId sh d) hsub]
      exact ⟨_, rfl⟩

/-- A read-only shard `s1` holding one stored document. -/
def shardC6 : ShardState :=
  { shardId := some "s1", isOpen := false
    docs := [[("_id", .vObjectId 1), ("username", .vStr "bob")]]
    nextId := 5 }

/-- Witness for C6 at the read-only shard `s1`: all five mutating
primitives reject with `ShardIsReadOnly("s1")` leaving the state
untouched with no store call, while `findOne` and `find` succeed. -/
theorem readonly_shard_enforcement_witness :
    shardC6.saveObj clsC1 instC4 =
      ⟨.error (.shardIsReadOnly "s1"), shardC6, []⟩ ∧
    shardC6.deleteObj instC4 =
      ⟨.error (.shardIsReadOnly "s1"), shardC6, []⟩ ∧
    shardC6.deleteQuery [] = ⟨.error (.shardIsReadOnly "s1"), shardC6, []⟩ ∧
    shardC6.updateQuery [] [] =
      ⟨.error (.shardIsReadOnly "s1"), shardC6, []⟩ ∧
    shardC6.findAndUpdateObject instC4 [] none =
      ⟨.error (.shardIsReadOnly "s1"), shardC6, []⟩ ∧
    (shardC6.getObject clsC1 []).result.isOk = true ∧
    (shardC6.getObject clsC1 []).calls = [.findOne] ∧
    shardC6.getObjectsCursor [] = ⟨.ok shardC6.docs, shardC6, [.find]⟩ := by
  have h := readonly_shard_enforcement shardC6 clsC1 instC4 [] [] none rfl
  obtain ⟨r, hr⟩ := h.2.2.2.2.2.1 rfl
  have hname : shardC6.name = "s1" := rfl
  refine ⟨?_, ?_, ?_, ?_, ?_, ?_, ?_, ?_⟩
  · rw [← hname]
    exact h.1
  · rw [← hname]
    exact h.2.1
  · rw [← hname]
    exact h.2.2.1
  · rw [← hname]
    exact h.2.2.2.1
  · rw [← hname]
    exact h.2.2.2.2.1
  · rw [hr]
    rfl
  · rw [hr]
  · have := h.2.2.2.2.2.2
    simpa using this

end Uorm
